import Mathlib

/-!
Verification of the Wordle result analyzer and tournament logic of the
wordleWhatsappBot repository, shallowly embedded from the JavaScript source
(src/wordleAnalyzer.js and src/index.js).

JavaScript strings are modelled as lists of Unicode code points (Lean Char);
where UTF-16 code-unit indices matter (the lastIndex of a global regex) they
are computed explicitly.  JavaScript numbers appearing here are integers
except where noted; NaN-capable positions are modelled with Option.
-/

/-- A JavaScript string, as its list of Unicode code points. -/
abbrev JSString := List Char

/-- Code point U+2B1B (black large square). -/
def blackSq : Char := Char.ofNat 0x2B1B

/-- Code point U+2B1C (white large square). -/
def whiteSq : Char := Char.ofNat 0x2B1C

/-- Code point U+1F7E8 (yellow square). -/
def yellowSq : Char := Char.ofNat 0x1F7E8

/-- Code point U+1F7E9 (green square). -/
def greenSq : Char := Char.ofNat 0x1F7E9

/-- Code point U+1F7E6 (blue square). -/
def blueSq : Char := Char.ofNat 0x1F7E6

/-- The closed five-symbol alternation of the analyzer's wordleEmojiPattern
regex (black, white, yellow, green, blue squares). -/
def isGridEmoji (c : Char) : Bool :=
  c = blackSq || c = whiteSq || c = yellowSq || c = greenSq || c = blueSq

/-- Per-symbol bonus values of the analyzer's emojiPoints table; the source
reads the table with a fallback of 0 for symbols outside it. -/
def emojiPoints (c : Char) : Nat :=
  if c = greenSq then 2 else if c = yellowSq then 1 else 0

/-- The analyzer's baseScores table keyed by the attempts label, with the
fallback of 0 used by calculateScore for absent keys. -/
def baseScores (attemptsStr : String) : Nat :=
  if attemptsStr = "1" then 600
  else if attemptsStr = "2" then 500
  else if attemptsStr = "3" then 400
  else if attemptsStr = "4" then 300
  else if attemptsStr = "5" then 200
  else if attemptsStr = "6" then 100
  else 0

/-- A computed score, as returned by calculateScore. -/
structure Score where
  baseScore : Nat
  emojiPoints : Nat
  totalScore : Nat
deriving DecidableEq

/-- Model of calculateScore: base score from the attempts label and the sum of
per-symbol emoji points over every symbol of every retained grid row (the
source iterates the code points of each row string). -/
def calculateScore (attemptsStr : String) (pattern : List (List Char)) : Score :=
  let baseScore := baseScores attemptsStr
  let pts := pattern.foldl (fun acc line => acc + line.foldl (fun a e => a + emojiPoints e) 0) 0
  { baseScore := baseScore, emojiPoints := pts, totalScore := baseScore + pts }

/-- Model of JavaScript String.prototype.split with a one-character separator:
always returns at least one (possibly empty) segment. -/
def jsSplit (sep : Char) : List Char → List (List Char)
  | [] => [[]]
  | c :: rest =>
    match jsSplit sep rest with
    | [] => [[]]
    | seg :: segs => if c = sep then [] :: seg :: segs else (c :: seg) :: segs

/-- Model of extractEmojisFromLine: matchAll of the five-symbol alternation
over the line collects, in order, exactly the code points belonging to the
closed symbol set. -/
def extractEmojisFromLine (line : List Char) : List Char :=
  line.filter isGridEmoji

/-- Whitespace class of the JavaScript regex escape backslash-s. -/
def jsWhitespace (c : Char) : Bool :=
  c = ' ' || c = '\t' || c = '\n' || c = '\r' ||
  c.toNat = 0x0B || c.toNat = 0x0C || c.toNat = 0xA0 || c.toNat = 0x1680 ||
  (0x2000 ≤ c.toNat && c.toNat ≤ 0x200A) || c.toNat = 0x2028 || c.toNat = 0x2029 ||
  c.toNat = 0x202F || c.toNat = 0x205F || c.toNat = 0x3000 || c.toNat = 0xFEFF

/-- ASCII decimal digit class of the regex escape backslash-d. -/
def isDigitChar (c : Char) : Bool := '0' ≤ c && c ≤ '9'

/-- ASCII lower-casing used to model the case-insensitive i flag of the header
regex (only ASCII letters occur in the pattern). -/
def charLowerAscii (c : Char) : Char :=
  if 'A' ≤ c && c ≤ 'Z' then Char.ofNat (c.toNat + 32) else c

/-- Case-insensitive literal match at the head of the input; returns the rest
of the input on success. -/
def matchLitCI : List Char → List Char → Option (List Char)
  | [], cs => some cs
  | _ :: _, [] => none
  | l :: ls, c :: cs =>
    if charLowerAscii c = charLowerAscii l then matchLitCI ls cs else none

/-- Greedy match of one-or-more whitespace.  In the header regex both
whitespace runs are followed by a non-whitespace class, so maximal munch is
exact and no backtracking can occur here. -/
def skipWS1 (cs : List Char) : Option (List Char) :=
  match cs with
  | c :: rest => if jsWhitespace c then some (rest.dropWhile jsWhitespace) else none
  | [] => none

/-- Candidates, in greedy (longest-first) order, for the group of one to four
leading digits of the game number. -/
def digitCandidates (cs : List Char) : List (List Char × List Char) :=
  let k := min (cs.takeWhile isDigitChar).length 4
  (List.range k).map (fun i => (cs.take (k - i), cs.drop (k - i)))

/-- Candidates, in greedy (longest-first) order, for the starred group of
comma-plus-three-digits repetitions of the game number; each candidate is the
consumed prefix paired with the remaining input. -/
def commaGroupChain : List Char → List (List Char × List Char)
  | ',' :: d1 :: d2 :: d3 :: rest =>
    if isDigitChar d1 && isDigitChar d2 && isDigitChar d3 then
      ((commaGroupChain rest).map (fun p => (',' :: d1 :: d2 :: d3 :: p.1, p.2))) ++
        [([], ',' :: d1 :: d2 :: d3 :: rest)]
    else [([], ',' :: d1 :: d2 :: d3 :: rest)]
  | cs => [([], cs)]

/-- Character class of the attempts token: a digit 1 to 6, or the letter X in
either case (the header regex carries the i flag). -/
def attemptsClass (c : Char) : Bool :=
  ('1' ≤ c && c ≤ '6') || c = 'X' || c = 'x'

/-- Match of the tail of the header regex after the game number: one-or-more
whitespace, the attempts class, then the literal slash six.  Returns the
attempts character on success. -/
def matchTail (cs : List Char) : Option Char :=
  match skipWS1 cs with
  | some rest =>
    match rest with
    | a :: '/' :: '6' :: _ => if attemptsClass a then some a else none
    | _ => none
  | none => none

/-- Attempt of the full header regex at the current position, with the
backtracking order of the JavaScript engine over the digit and comma-group
alternatives.  Returns the captured game-number characters (commas included)
and the captured attempts character. -/
def matchHeaderAt (cs : List Char) : Option (List Char × Char) :=
  match matchLitCI ['w', 'o', 'r', 'd', 'l', 'e'] cs with
  | none => none
  | some r1 =>
    match skipWS1 r1 with
    | none => none
    | some r2 =>
      List.findSome? (fun dp =>
        List.findSome? (fun gp =>
          (matchTail gp.2).map (fun a => (dp.1 ++ gp.1, a)))
          (commaGroupChain dp.2))
        (digitCandidates r2)

/-- Leftmost match of the header regex over the whole text, as performed by
String.prototype.match with a non-global regex. -/
def findHeader : List Char → Option (List Char × Char)
  | [] => none
  | c :: rest =>
    match matchHeaderAt (c :: rest) with
    | some r => some r
    | none => findHeader rest

/-- Model of parseInt for the argument shapes this program produces: the
longest leading run of decimal digits, or none when there is no such digit
(none models NaN). -/
def jsParseInt (cs : List Char) : Option Nat :=
  if (cs.takeWhile isDigitChar).isEmpty then none
  else some ((cs.takeWhile isDigitChar).foldl (fun a c => a * 10 + (c.toNat - 48)) 0)

/-- A parsed Wordle result, with the exact fields built by parseWordleResult.
The attempts field is the JavaScript number stored there; none models NaN,
which the source produces when the attempts token is a lower-case x. -/
structure ParsedResult where
  gameNumber : Nat
  attempts : Option Nat
  actualAttempts : String
  solved : Bool
  pattern : List (List Char)
  score : Score
  rawText : JSString
deriving DecidableEq

instance : Inhabited ParsedResult :=
  ⟨⟨0, none, "", false, [], ⟨0, 0, 0⟩, []⟩⟩

/-- Model of parseWordleResult: match the header, derive game number and
attempts, split into lines, retain exactly the lines yielding five grid
symbols, fail when none remain, and attach the computed score. -/
def parseWordleResult (text : JSString) : Option ParsedResult :=
  match findHeader text with
  | none => none
  | some (numChars, aChar) =>
    let gameNumber := (numChars.filter (fun c => c ≠ ',')).foldl
      (fun a c => a * 10 + (c.toNat - 48)) 0
    let attemptsStr := String.mk [aChar]
    let attempts : Option Nat := if aChar = 'X' then some 7 else jsParseInt [aChar]
    let solved : Bool := aChar != 'X'
    let patternLines :=
      ((jsSplit '\n' text).map extractEmojisFromLine).filter (fun e => e.length == 5)
    if patternLines.length = 0 then none
    else
      some { gameNumber := gameNumber
             attempts := if solved then attempts else some 6
             actualAttempts := attemptsStr
             solved := solved
             pattern := patternLines
             score := calculateScore attemptsStr patternLines
             rawText := text }

/-- UTF-16 length, in code units, of one code point (astral code points take a
surrogate pair). -/
def utf16Len (c : Char) : Nat := if c.toNat ≥ 0x10000 then 2 else 1

/-- The analyzer state that persists across calls: the lastIndex property of
the global wordleEmojiPattern regex created in the constructor.  The header
regex wordlePattern carries no g flag, so it holds no state. -/
structure AnalyzerState where
  emojiLastIndex : Nat
deriving DecidableEq

/-- Model of RegExp.prototype.test for the global emoji regex: find the first
grid symbol whose UTF-16 start index is at least lastIndex; on success the
result is true and lastIndex becomes the index just past the match, on failure
the result is false and lastIndex is reset to 0. -/
def emojiTestFrom (k : Nat) : Nat → List Char → Bool × Nat
  | _, [] => (false, 0)
  | i, c :: rest =>
    if k ≤ i ∧ isGridEmoji c then (true, i + utf16Len c)
    else emojiTestFrom k (i + utf16Len c) rest

/-- Model of isWordleResult: the conjunction of the header test (stateless)
and the emoji test (stateful, because the emoji regex is global and its
lastIndex persists on the analyzer between calls).  The JavaScript conjunction
short-circuits, so the emoji regex is not touched when the header fails. -/
def isWordleResult (st : AnalyzerState) (text : JSString) : Bool × AnalyzerState :=
  if (findHeader text).isSome then
    let r := emojiTestFrom st.emojiLastIndex 0 text
    (r.1, ⟨r.2⟩)
  else (false, st)

/-- Decimal digits of a natural number, most significant first, by structural
recursion on a fuel argument so that the kernel can evaluate it; the fuel is
always sufficient when at least the number itself. -/
def natDigitsAux : Nat → Nat → List Nat
  | 0, n => [n % 10]
  | fuel + 1, n => if n < 10 then [n] else natDigitsAux fuel (n / 10) ++ [n % 10]

/-- Decimal digits of a natural number, most significant first. -/
def natDigits (n : Nat) : List Nat := natDigitsAux n n

/-- The ASCII character of one decimal digit. -/
def digitChar (d : Nat) : Char := Char.ofNat (48 + d)

/-- Decimal rendering of a natural number, modelling JavaScript
number-to-string conversion for non-negative integers. -/
def natToChars (n : Nat) : List Char := (natDigits n).map digitChar

/-- Decimal rendering of an integer, modelling JavaScript number-to-string
conversion for integers. -/
def jsIntToChars (i : Int) : List Char :=
  if i < 0 then '-' :: natToChars (-i).toNat else natToChars i.toNat

/-- The property key under which getPlayerStats buckets a solved result: the
string of its attempts number, or the NaN key when that number is NaN. -/
def attemptsKey : Option Nat → String
  | some n => String.mk (natToChars n)
  | none => "NaN"

/-- Model of the JavaScript increment of an object property inside
getPlayerStats: a present numeric count is incremented, a present NaN stays
NaN, and an absent key is created holding NaN (undefined plus one). -/
def bumpKey (k : String) : List (String × Option Nat) → List (String × Option Nat)
  | [] => [(k, none)]
  | (k', v) :: rest =>
    if k' = k then (k', v.map (· + 1)) :: rest else (k', v) :: bumpKey k rest

/-- The seven-bucket distribution object that the non-empty branch of
getPlayerStats starts from. -/
def initialDistribution : List (String × Option Nat) :=
  [("1", some 0), ("2", some 0), ("3", some 0), ("4", some 0), ("5", some 0),
   ("6", some 0), ("X", some 0)]

/-- Player statistics, with the exact fields built by getPlayerStats.  The
rate and average fields are JavaScript floating-point divisions, modelled as
exact rationals; averageAttempts can be NaN (modelled as none) because the
attempts field of a stored result can be NaN.  The distribution is the JS
object as an insertion-ordered association list, with none modelling NaN
counts. -/
structure PlayerStats where
  totalGames : Nat
  solvedGames : Nat
  solveRate : Rat
  averageAttempts : Option Rat
  averageScore : Rat
  totalScore : Nat
  distribution : List (String × Option Nat)
deriving DecidableEq

/-- Model of getPlayerStats.  The empty-input branch returns the literal
zero-valued object of the source, whose distribution is the empty object.  In
the non-empty branch the score field is always present on the model's results,
so the truthiness guard of the source before adding totalScore always
passes. -/
def getPlayerStats (results : List ParsedResult) : PlayerStats :=
  if results.length = 0 then
    { totalGames := 0, solvedGames := 0, solveRate := 0, averageAttempts := some 0,
      averageScore := 0, totalScore := 0, distribution := [] }
  else
    let solved := results.filter (fun r => r.solved)
    let distribution := results.foldl
      (fun d r => if r.solved then bumpKey (attemptsKey r.attempts) d else bumpKey "X" d)
      initialDistribution
    let totalScore : Nat := results.foldl (fun t r => t + r.score.totalScore) 0
    { totalGames := results.length
      solvedGames := solved.length
      solveRate := ((solved.length : Rat) / (results.length : Rat)) * 100
      averageAttempts :=
        if solved.length > 0 then
          (solved.foldl (fun acc r =>
            match acc, r.attempts with
            | some a, some n => some (a + (n : Rat))
            | _, _ => none) (some (0 : Rat))).map (fun s => s / (solved.length : Rat))
        else some 0
      averageScore :=
        if results.length > 0 then (totalScore : Rat) / (results.length : Rat) else 0
      totalScore := totalScore
      distribution := distribution }

/-- A stored scored result as ranked by generateGameLeaderboard: the parse
fields it renders plus the player name attached when the result was stored. -/
structure GameEntry where
  player : String
  gameNumber : Nat
  solved : Bool
  attempts : Option Nat
  score : Score
deriving DecidableEq

/-- The comparator passed to Array.prototype.sort by generateGameLeaderboard:
total score descending, then base score descending. -/
def gameCompare (a b : GameEntry) : Int :=
  if b.score.totalScore ≠ a.score.totalScore then
    (b.score.totalScore : Int) - (a.score.totalScore : Int)
  else (b.score.baseScore : Int) - (a.score.baseScore : Int)

/-- The keep-before relation induced by the comparator: a stays before b
exactly when the comparator is non-positive on (a, b). -/
def gameLE (a b : GameEntry) : Prop := gameCompare a b ≤ 0

instance : DecidableRel gameLE := fun a b => by unfold gameLE; infer_instance

/-- Model of the Array.prototype.sort call of generateGameLeaderboard.  The
ECMAScript specification requires sort to be stable and, for a consistent
comparator, sorted; with a consistent comparator that determines the output
uniquely, here realised by a stable insertion sort.  The sort happens in
place, so this list is also the state of the caller's array after the call. -/
def sortedGameResults (gameResults : List GameEntry) : List GameEntry :=
  gameResults.insertionSort gameLE

/-- The rank-annotated rendering order of generateGameLeaderboard: the sorted
entries paired with their one-based position, exactly as the forEach of the
source derives each printed rank from the entry's index. -/
def gameLeaderboardRanks (gameResults : List GameEntry) : List (Nat × GameEntry) :=
  (sortedGameResults gameResults).enum.map (fun p => (p.1 + 1, p.2))

/-- Gregorian leap-year rule, as implemented by the JavaScript Date object. -/
def isLeapYear (y : Int) : Bool := (y % 4 == 0 && y % 100 != 0) || y % 400 == 0

/-- Number of days of a calendar month (1 to 12) of a year. -/
def daysInMonth (y : Int) (m : Nat) : Nat :=
  if m = 2 then (if isLeapYear y then 29 else 28)
  else if m = 4 ∨ m = 6 ∨ m = 9 ∨ m = 11 then 30 else 31

/-- Two-digit-year rule of the Date(year, month, day) constructor: a year
argument from 0 to 99 is interpreted as 1900 plus that year. -/
def jsYearMap (y : Int) : Int := if 0 ≤ y ∧ y ≤ 99 then 1900 + y else y

/-- A calendar date as read back from a JavaScript Date: full year, one-based
month, day of month. -/
abbrev JSDate := Int × Nat × Nat

/-- Model of constructing Date(year, monthIndex, day) and reading back
(getFullYear, getMonth plus one, getDate), for the argument shapes this
program produces: monthIndex between 0 and 12 and day 0 (which normalizes to
the last day of the preceding month) or a day within the target month.  Other
shapes, which the program never constructs, are mapped to none. -/
def jsDateYMD (y : Int) (monthIndex : Int) (day : Int) : Option JSDate :=
  if monthIndex < 0 ∨ 12 < monthIndex then none
  else
    let yr := jsYearMap y
    let ym : Int × Nat := if monthIndex = 12 then (yr + 1, 1) else (yr, monthIndex.toNat + 1)
    if day = 0 then
      let ym2 : Int × Nat := if ym.2 = 1 then (ym.1 - 1, 12) else (ym.1, ym.2 - 1)
      some (ym2.1, ym2.2, daysInMonth ym2.1 ym2.2)
    else if 1 ≤ day ∧ day ≤ (daysInMonth ym.1 ym.2 : Int) then some (ym.1, ym.2, day.toNat)
    else none

/-- Model of String.prototype.padStart(2, zero) as used on the month. -/
def jsPadStart2Zero (cs : List Char) : List Char :=
  List.replicate (2 - cs.length) '0' ++ cs

/-- Model of getCurrentTournamentId, with the current date (as produced by
getFullYear, getMonth plus one, getDate) passed explicitly: day at most 15
gives half 1, day 16 onward gives half 2, rendered as the template string of
year, zero-padded month, and the tournament half after a T. -/
def getCurrentTournamentId (year : Int) (month day : Nat) : JSString :=
  let tournamentInMonth : Nat := if day ≤ 15 then 1 else 2
  jsIntToChars year ++ '-' :: jsPadStart2Zero (natToChars month) ++
    '-' :: 'T' :: natToChars tournamentInMonth

/-- Model of String.prototype.replace with a plain one-character pattern and
empty replacement: only the first occurrence is removed. -/
def jsReplaceFirst (pat : Char) : List Char → List Char
  | [] => []
  | c :: rest => if c = pat then rest else c :: jsReplaceFirst pat rest

/-- Model of getTournamentDateRange: destructure the id on dashes, parse the
numbers, and build the date range, where half 1 spans days 1 to 15 and half 2
spans day 16 to the last day of the month obtained from Date(year, monthNum,
0).  A NaN produced by a failed parseInt poisons the Date constructions; that
and the unreachable argument shapes of the Date model are mapped to none. -/
def getTournamentDateRange (tournamentId : JSString) : Option (JSDate × JSDate) :=
  match jsSplit '-' tournamentId with
  | year :: month :: tournamentPart :: _ =>
    match jsParseInt (jsReplaceFirst 'T' tournamentPart), jsParseInt month, jsParseInt year with
    | some tournamentNum, some monthNum, some yearNum =>
      let startDay : Int := if tournamentNum = 1 then 1 else 16
      let endDayOpt : Option Int :=
        if tournamentNum = 1 then some 15
        else (jsDateYMD (yearNum : Int) (monthNum : Int) 0).map (fun p => (p.2.2 : Int))
      match endDayOpt with
      | none => none
      | some endDay =>
        match jsDateYMD (yearNum : Int) ((monthNum : Int) - 1) startDay,
              jsDateYMD (yearNum : Int) ((monthNum : Int) - 1) endDay with
        | some s, some e => some (s, e)
        | _, _ => none
    | _, _, _ => none
  | _ => none

/-- Chronological order on calendar dates, lexicographic on year, month,
day. -/
def dateLE (a b : JSDate) : Prop :=
  a.1 < b.1 ∨ (a.1 = b.1 ∧ (a.2.1 < b.2.1 ∨ (a.2.1 = b.2.1 ∧ a.2.2 ≤ b.2.2)))

instance (a b : JSDate) : Decidable (dateLE a b) := by
  unfold dateLE; infer_instance

/-- The end-to-end example text of the specification: the header line, a blank
line, and the four emoji grid rows. -/
def exampleText : JSString :=
  ("Wordle 1,234 4/6\n\n⬛🟨⬛⬛⬛\n⬛⬛🟩🟨⬛\n🟨🟩🟩⬛🟩\n🟩🟩🟩🟩🟩").toList

/-- The four grid rows of the example, as retained by the parser. -/
def exampleGrid : List (List Char) :=
  [[blackSq, yellowSq, blackSq, blackSq, blackSq],
   [blackSq, blackSq, greenSq, yellowSq, blackSq],
   [yellowSq, greenSq, greenSq, blackSq, greenSq],
   [greenSq, greenSq, greenSq, greenSq, greenSq]]

/-- A text with a valid header whose body contains a single grid symbol; used
to exercise the persistent lastIndex of the global emoji regex. -/
def tSingleEmojiText : JSString := "Wordle 123 4/6 ⬛".toList

/-- A text with a valid header whose only grid symbol sits at a large UTF-16
index, so that recognizing it leaves a large lastIndex behind. -/
def tPriorText : JSString :=
  "Wordle 123 4/6 aaaaaaaaaaaaaaaaaaaaaaaaaaaaaa⬛".toList

/-- A short, fully parseable result text. -/
def tParseableText : JSString := "Wordle 1 1/6\n🟩🟩🟩🟩🟩".toList

/-- A result text carrying seven valid five-symbol grid rows. -/
def tSevenRowText : JSString :=
  ("Wordle 99 3/6\n🟩🟩🟩🟩🟩\n🟩🟩🟩🟩🟩\n🟩🟩🟩🟩🟩\n🟩🟩🟩🟩🟩\n" ++
   "🟩🟩🟩🟩🟩\n🟩🟩🟩🟩🟩\n🟩🟩🟩🟩🟩").toList

/-- A stored entry that totals 102 points. -/
def entryA : GameEntry :=
  { player := "A", gameNumber := 10, solved := true, attempts := some 6,
    score := { baseScore := 100, emojiPoints := 2, totalScore := 102 } }

/-- A stored entry that totals 305 points. -/
def entryB : GameEntry :=
  { player := "B", gameNumber := 10, solved := true, attempts := some 4,
    score := { baseScore := 300, emojiPoints := 5, totalScore := 305 } }

/-- C1: on the specification's example input, parseWordleResult returns game
number 1234, attempts label 4, solved, a grid of exactly the four rows shown,
and calculateScore on that grid yields 21 bonus points, base score 300 and
total score 321. -/
theorem parseWordleResult_example :
    parseWordleResult exampleText =
      some { gameNumber := 1234, attempts := some 4, actualAttempts := "4",
             solved := true, pattern := exampleGrid,
             score := { baseScore := 300, emojiPoints := 21, totalScore := 321 },
             rawText := exampleText }
    ∧ calculateScore "4" exampleGrid =
        { baseScore := 300, emojiPoints := 21, totalScore := 321 } := by
  decide

/-- C2 counterexample: on the empty input, getPlayerStats returns the empty
distribution object, so the bucket for label 1 (and hence each of the claimed
seven zero-count buckets) is absent. -/
theorem getPlayerStats_empty_missing_buckets :
    (getPlayerStats []).distribution = []
    ∧ ((getPlayerStats []).distribution.lookup "1") = none := by
  decide

/-- C2 amended: on the empty input, getPlayerStats returns without failing the
object whose totalGames, solvedGames, solveRate, averageAttempts, averageScore
and totalScore are all 0 and whose distribution is the empty object. -/
theorem getPlayerStats_empty :
    getPlayerStats [] =
      { totalGames := 0, solvedGames := 0, solveRate := 0, averageAttempts := some 0,
        averageScore := 0, totalScore := 0, distribution := [] } := by
  rfl

/-- C4: parseWordleResult succeeds on the parseable text, and from the initial
analyzer state isWordleResult accepts it, but after an earlier isWordleResult
call on another message (which leaves the global emoji regex's lastIndex
beyond the end of the parseable text) isWordleResult rejects that same
parseable text. -/
theorem isWordleResult_rejects_parseable_after_prior_call :
    (parseWordleResult tParseableText).isSome = true
    ∧ (isWordleResult ⟨0⟩ tParseableText).1 = true
    ∧ (isWordleResult (isWordleResult ⟨0⟩ tPriorText).2 tParseableText).1 = false := by
  decide

/-- C5: two consecutive isWordleResult calls on the same single-emoji text
return different booleans, because the first call advances the lastIndex of
the global emoji regex past the only grid symbol. -/
theorem isWordleResult_not_deterministic :
    (isWordleResult ⟨0⟩ tSingleEmojiText).1 = true
    ∧ (isWordleResult (isWordleResult ⟨0⟩ tSingleEmojiText).2 tSingleEmojiText).1 = false := by
  decide

/-- C3 counterexample: on a text with seven valid five-symbol rows the parse
succeeds and returns a grid of length 7, exceeding the claimed bound of 6. -/
theorem parse_seven_row_grid :
    (parseWordleResult tSevenRowText).isSome = true
    ∧ ((parseWordleResult tSevenRowText).getD default).pattern.length = 7 := by
  decide

/-- C6 counterexample: February 29 of year 0 is a valid calendar date (year 0
is a leap year), but the two-digit-year rule of the Date constructor makes the
computed range run over February 1900, which does not contain the date. -/
theorem tournament_range_year_zero :
    daysInMonth 0 2 = 29
    ∧ getTournamentDateRange (getCurrentTournamentId 0 2 29) =
        some ((1900, 2, 16), (1900, 2, 28))
    ∧ ¬ (dateLE (1900, 2, 16) (0, 2, 29) ∧ dateLE (0, 2, 29) (1900, 2, 28)) := by
  decide

/-- C10 counterexample: sorting happens in place, so after the call the
caller's two-element array is reordered and no longer equals the input
sequence. -/
theorem generateGameLeaderboard_mutates_input :
    sortedGameResults [entryA, entryB] = [entryB, entryA]
    ∧ sortedGameResults [entryA, entryB] ≠ [entryA, entryB] := by
  decide

/-- Structural description of a successful parse: the header matched, the
grid is exactly the retained five-symbol lines, at least one line was
retained, and the attempts label and solved flag come from the captured
attempts character. -/
theorem parseWordleResult_fields (text : JSString) (r : ParsedResult)
    (h : parseWordleResult text = some r) :
    ∃ numChars aChar, findHeader text = some (numChars, aChar)
      ∧ r.pattern =
          ((jsSplit '\n' text).map extractEmojisFromLine).filter (fun e => e.length == 5)
      ∧ r.pattern.length ≠ 0
      ∧ r.actualAttempts = String.mk [aChar]
      ∧ r.solved = (aChar != 'X') := by
  unfold parseWordleResult at h
  cases hfind : findHeader text with
  | none => rw [hfind] at h; exact absurd h (by simp)
  | some p =>
    obtain ⟨numChars, aChar⟩ := p
    rw [hfind] at h
    refine ⟨numChars, aChar, rfl, ?_⟩
    dsimp only at h
    split at h
    · exact absurd h (by simp)
    · rename_i hlen
      obtain rfl := (Option.some.injEq _ _).mp h
      exact ⟨rfl, hlen, rfl, rfl⟩

/-- C3 amended: a successful parse returns a grid of length at least 1 (no
upper bound is enforced by the code) all of whose rows consist of exactly five
recognized grid symbols, and when zero valid five-symbol lines remain the
parse fails as a whole. -/
theorem parse_grid_invariants :
    (∀ (text : JSString) (r : ParsedResult), parseWordleResult text = some r →
      1 ≤ r.pattern.length
      ∧ ∀ row ∈ r.pattern, row.length = 5 ∧ ∀ c ∈ row, isGridEmoji c = true)
    ∧ (∀ text : JSString,
        ((jsSplit '\n' text).map extractEmojisFromLine).filter (fun e => e.length == 5) = [] →
        parseWordleResult text = none) := by
  constructor
  · intro text r h
    obtain ⟨numChars, aChar, _, hpat, hlen, _, _⟩ := parseWordleResult_fields text r h
    constructor
    · omega
    · intro row hrow
      rw [hpat] at hrow
      have h5 := List.of_mem_filter hrow
      have hmem := List.mem_of_mem_filter hrow
      obtain ⟨line, _, hline⟩ := List.mem_map.mp hmem
      constructor
      · simpa using h5
      · intro c hc
        rw [← hline] at hc
        exact List.of_mem_filter hc
  · intro text hempty
    unfold parseWordleResult
    cases hfind : findHeader text with
    | none => rfl
    | some p =>
      obtain ⟨numChars, aChar⟩ := p
      dsimp only
      rw [hempty]
      rfl

/-- The record produced by parsing the short parseable text. -/
def rParseable : ParsedResult :=
  { gameNumber := 1, attempts := some 1, actualAttempts := "1", solved := true,
    pattern := [[greenSq, greenSq, greenSq, greenSq, greenSq]],
    score := { baseScore := 600, emojiPoints := 10, totalScore := 610 },
    rawText := tParseableText }

/-- Witness for the C3 amended theorem at concrete inputs: the invariant holds
for the parse of the short parseable text, and a text with no grid lines fails
to parse. -/
theorem parse_grid_invariants_witness :
    (parseWordleResult tParseableText = some rParseable)
    ∧ (1 ≤ rParseable.pattern.length
        ∧ ∀ row ∈ rParseable.pattern, row.length = 5 ∧ ∀ c ∈ row, isGridEmoji c = true)
    ∧ (((jsSplit '\n' "hello".toList).map extractEmojisFromLine).filter
          (fun e => e.length == 5) = []
        ∧ parseWordleResult "hello".toList = none) :=
  ⟨by decide, parse_grid_invariants.1 tParseableText rParseable (by decide),
   by decide, parse_grid_invariants.2 "hello".toList (by decide)⟩

/-- C8: the base-score table assigns 600, 500, 400, 300, 200, 100 to labels 1
through 6 and 0 to X, each adjacent gap is exactly 100, calculateScore for
label X returns base score 0 regardless of the grid, and a parsed result
labelled X is not solved. -/
theorem baseScore_table_unsolved :
    (baseScores "1" = 600 ∧ baseScores "2" = 500 ∧ baseScores "3" = 400
      ∧ baseScores "4" = 300 ∧ baseScores "5" = 200 ∧ baseScores "6" = 100
      ∧ baseScores "X" = 0)
    ∧ (baseScores "2" + 100 = baseScores "1" ∧ baseScores "3" + 100 = baseScores "2"
      ∧ baseScores "4" + 100 = baseScores "3" ∧ baseScores "5" + 100 = baseScores "4"
      ∧ baseScores "6" + 100 = baseScores "5" ∧ baseScores "X" + 100 = baseScores "6")
    ∧ (∀ pattern : List (List Char), (calculateScore "X" pattern).baseScore = 0)
    ∧ (∀ (text : JSString) (r : ParsedResult), parseWordleResult text = some r →
        r.actualAttempts = "X" → r.solved = false) := by
  refine ⟨by decide, by decide, fun pattern => rfl, ?_⟩
  intro text r h hx
  obtain ⟨numChars, aChar, _, _, _, hlabel, hsolved⟩ := parseWordleResult_fields text r h
  rw [hlabel] at hx
  have : aChar = 'X' := by
    have := congrArg String.data hx
    simpa using this
  rw [hsolved, this]
  decide

/-- A parsed result labelled X, used to witness the unsolved case. -/
def rFailed : ParsedResult :=
  { gameNumber := 77, attempts := some 6, actualAttempts := "X", solved := false,
    pattern := [[blackSq, blackSq, blackSq, blackSq, blackSq]],
    score := { baseScore := 0, emojiPoints := 0, totalScore := 0 },
    rawText := "Wordle 77 X/6\n⬛⬛⬛⬛⬛".toList }

/-- Witness for C8 at concrete inputs: base score 0 for label X on the
example grid, and the parsed X-labelled text is unsolved. -/
theorem baseScore_table_unsolved_witness :
    (calculateScore "X" exampleGrid).baseScore = 0
    ∧ (parseWordleResult ("Wordle 77 X/6\n⬛⬛⬛⬛⬛".toList) = some rFailed
        ∧ rFailed.actualAttempts = "X" ∧ rFailed.solved = false) :=
  ⟨baseScore_table_unsolved.2.2.1 exampleGrid,
   by decide,
   by decide,
   baseScore_table_unsolved.2.2.2 ("Wordle 77 X/6\n⬛⬛⬛⬛⬛".toList) rFailed
     (by decide) (by decide)⟩

/-- Upper bound of the per-symbol bonus values. -/
theorem emojiPoints_le_two (c : Char) : emojiPoints c ≤ 2 := by
  unfold emojiPoints
  split
  · omega
  · split <;> omega

/-- Accumulator bound for the per-row fold of calculateScore. -/
theorem row_fold_le (line : List Char) :
    ∀ a : Nat, line.foldl (fun a e => a + emojiPoints e) a ≤ a + 2 * line.length := by
  induction line with
  | nil => intro a; simp
  | cons c rest ih =>
    intro a
    calc (c :: rest).foldl (fun a e => a + emojiPoints e) a
        = rest.foldl (fun a e => a + emojiPoints e) (a + emojiPoints c) := rfl
      _ ≤ (a + emojiPoints c) + 2 * rest.length := ih _
      _ ≤ a + 2 * (c :: rest).length := by
          have := emojiPoints_le_two c
          simp only [List.length_cons]
          omega

/-- Accumulator bound for the outer fold of calculateScore over rows of
exactly five symbols. -/
theorem grid_fold_le (pattern : List (List Char)) (h : ∀ row ∈ pattern, row.length = 5) :
    ∀ a : Nat,
      pattern.foldl (fun acc line => acc + line.foldl (fun a e => a + emojiPoints e) 0) a ≤
        a + 10 * pattern.length := by
  induction pattern with
  | nil => intro a; simp
  | cons row rest ih =>
    intro a
    have hrow : row.length = 5 := h row (List.mem_cons_self row rest)
    have hrest : ∀ r ∈ rest, r.length = 5 := fun r hr => h r (List.mem_cons_of_mem row hr)
    calc (row :: rest).foldl (fun acc line => acc + line.foldl (fun a e => a + emojiPoints e) 0) a
        = rest.foldl (fun acc line => acc + line.foldl (fun a e => a + emojiPoints e) 0)
            (a + row.foldl (fun a e => a + emojiPoints e) 0) := rfl
      _ ≤ (a + row.foldl (fun a e => a + emojiPoints e) 0) + 10 * rest.length := ih hrest _
      _ ≤ a + 10 * (row :: rest).length := by
          have := row_fold_le row 0
          rw [hrow] at this
          simp only [List.length_cons]
          omega

/-- C9: over any grid of five-symbol rows the bonus points computed by
calculateScore are at most 10 per row, and for grids of at most six rows they
never exceed 99, staying under the 100-point gap between adjacent base-score
tiers. -/
theorem emojiPoints_bounds (attemptsStr : String) (pattern : List (List Char))
    (h : ∀ row ∈ pattern, row.length = 5) :
    (calculateScore attemptsStr pattern).emojiPoints ≤ 10 * pattern.length
    ∧ (pattern.length ≤ 6 → (calculateScore attemptsStr pattern).emojiPoints ≤ 99) := by
  have hb := grid_fold_le pattern h 0
  constructor
  · simpa [calculateScore] using hb
  · intro h6
    have : (calculateScore attemptsStr pattern).emojiPoints ≤ 10 * pattern.length := by
      simpa [calculateScore] using hb
    omega

/-- Witness for C9 at the example grid: its 21 bonus points are at most 40 and
at most 99. -/
theorem emojiPoints_bounds_witness :
    (calculateScore "4" exampleGrid).emojiPoints ≤ 10 * exampleGrid.length
    ∧ (exampleGrid.length ≤ 6 → (calculateScore "4" exampleGrid).emojiPoints ≤ 99) :=
  emojiPoints_bounds "4" exampleGrid (by decide)

/-- C10 amended: the leaderboard sort neither creates, drops, nor mutates any
stored entry, the final array being a permutation of the input; but it
reorders the caller's array in place, so the input order is not preserved. -/
theorem generateGameLeaderboard_preserves_entries :
    ∀ gameResults : List GameEntry, (sortedGameResults gameResults).Perm gameResults :=
  fun gameResults => List.perm_insertionSort gameLE gameResults

/-- The keep-before relation of the leaderboard comparator, characterised as
the descending lexicographic order on (total score, base score). -/
theorem gameLE_iff (a b : GameEntry) :
    gameLE a b ↔ (b.score.totalScore < a.score.totalScore ∨
      (b.score.totalScore = a.score.totalScore
        ∧ b.score.baseScore ≤ a.score.baseScore)) := by
  unfold gameLE gameCompare
  split <;> omega

instance : IsTotal GameEntry gameLE :=
  ⟨fun a b => by rw [gameLE_iff, gameLE_iff]; omega⟩

instance : IsTrans GameEntry gameLE :=
  ⟨fun a b c hab hbc => by rw [gameLE_iff] at hab hbc ⊢; omega⟩

/-- Stability of the leaderboard sort: the entries holding any fixed pair of
total score and base score appear in the output in exactly their input
order. -/
theorem sortedGameResults_filter_key (gameResults : List GameEntry) (t bsc : Nat) :
    (sortedGameResults gameResults).filter
        (fun e => e.score.totalScore == t && e.score.baseScore == bsc) =
      gameResults.filter (fun e => e.score.totalScore == t && e.score.baseScore == bsc) := by
  set p : GameEntry → Bool := fun e => e.score.totalScore == t && e.score.baseScore == bsc
    with hp
  have hsub : List.Sublist (gameResults.filter p) gameResults :=
    List.filter_sublist gameResults
  have hpw : (gameResults.filter p).Pairwise gameLE := by
    apply List.pairwise_of_forall_mem_list
    intro a ha b hb
    have hpa := (List.mem_filter.mp ha).2
    have hpb := (List.mem_filter.mp hb).2
    rw [hp] at hpa hpb
    simp only [Bool.and_eq_true, beq_iff_eq] at hpa hpb
    rw [gameLE_iff]
    omega
  have h1 : List.Sublist (gameResults.filter p) (sortedGameResults gameResults) :=
    List.sublist_insertionSort hpw hsub
  have h2 : List.Sublist (gameResults.filter p)
      ((sortedGameResults gameResults).filter p) := by
    have h3 := h1.filter p
    rwa [List.filter_eq_self.mpr (fun a ha => (List.mem_filter.mp ha).2)] at h3
  have hperm : ((sortedGameResults gameResults).filter p).Perm (gameResults.filter p) :=
    (List.perm_insertionSort gameLE gameResults).filter p
  exact (h2.eq_of_length hperm.length_eq.symm).symm

/-- C7: the leaderboard output is ordered descending by total score with base
score breaking total-score ties, entries tied on both keys keep their input
order, and the assigned rank numbers are exactly 1, 2, ..., n. -/
theorem gameLeaderboard_order_stable_ranks :
    ∀ gameResults : List GameEntry,
      List.Pairwise (fun a b => b.score.totalScore < a.score.totalScore ∨
          (b.score.totalScore = a.score.totalScore
            ∧ b.score.baseScore ≤ a.score.baseScore))
        (sortedGameResults gameResults)
      ∧ (∀ t bsc : Nat,
          (sortedGameResults gameResults).filter
              (fun e => e.score.totalScore == t && e.score.baseScore == bsc) =
            gameResults.filter
              (fun e => e.score.totalScore == t && e.score.baseScore == bsc))
      ∧ (gameLeaderboardRanks gameResults).map Prod.fst =
          List.range' 1 gameResults.length := by
  intro gameResults
  refine ⟨?_, sortedGameResults_filter_key gameResults, ?_⟩
  · exact (List.sorted_insertionSort gameLE gameResults).imp
      (fun h => (gameLE_iff _ _).mp h)
  · unfold gameLeaderboardRanks
    rw [List.map_map]
    have h1 : (Prod.fst ∘ fun p : Nat × GameEntry => (p.1 + 1, p.2)) =
        (fun x : Nat => x + 1) ∘ Prod.fst := rfl
    rw [h1, ← List.map_map, List.enum_map_fst, List.range'_eq_map_range]
    have h2 : (sortedGameResults gameResults).length = gameResults.length :=
      List.length_insertionSort gameLE gameResults
    rw [h2]
    exact List.map_congr_left (fun x _ => Nat.add_comm x 1)

/-- Decimal value of a digit list, most significant first. -/
def digitsVal (ds : List Nat) : Nat := ds.foldl (fun a d => a * 10 + d) 0

/-- Every entry produced by the digit expansion is a decimal digit. -/
theorem natDigitsAux_lt10 : ∀ (fuel n : Nat), ∀ d ∈ natDigitsAux fuel n, d < 10 := by
  intro fuel
  induction fuel with
  | zero =>
    intro n d hd
    simp only [natDigitsAux, List.mem_singleton] at hd
    omega
  | succ f ih =>
    intro n d hd
    simp only [natDigitsAux] at hd
    split at hd
    · simp only [List.mem_singleton] at hd; omega
    · rw [List.mem_append] at hd
      cases hd with
      | inl h => exact ih _ d h
      | inr h => simp only [List.mem_singleton] at h; omega

/-- The digit expansion does not depend on the fuel, as long as the fuel is at
least the number. -/
theorem natDigitsAux_fuel_irrel :
    ∀ (fuel₁ fuel₂ n : Nat), n ≤ fuel₁ → n ≤ fuel₂ →
      natDigitsAux fuel₁ n = natDigitsAux fuel₂ n := by
  intro fuel₁
  induction fuel₁ with
  | zero =>
    intro fuel₂ n h1 _
    have : n = 0 := by omega
    subst this
    cases fuel₂ with
    | zero => rfl
    | succ f => simp [natDigitsAux]
  | succ f ih =>
    intro fuel₂ n h1 h2
    cases fuel₂ with
    | zero =>
      have : n = 0 := by omega
      subst this
      simp [natDigitsAux]
    | succ f₂ =>
      simp only [natDigitsAux]
      split
      · rfl
      · rename_i hn
        rw [ih f₂ (n / 10) (by omega) (by omega)]

/-- Unfolding step of the digit expansion for numbers of two or more
digits. -/
theorem natDigits_step (n : Nat) (h : 10 ≤ n) :
    natDigits n = natDigits (n / 10) ++ [n % 10] := by
  unfold natDigits
  obtain ⟨k, rfl⟩ : ∃ k, n = k + 1 := ⟨n - 1, by omega⟩
  simp only [natDigitsAux]
  rw [if_neg (by omega)]
  rw [natDigitsAux_fuel_irrel k ((k + 1) / 10) ((k + 1) / 10) (by omega) (Nat.le_refl _)]

/-- The digit expansion of a one-digit number. -/
theorem natDigits_lt10_eq (n : Nat) (h : n < 10) : natDigits n = [n] := by
  unfold natDigits
  cases n with
  | zero => rfl
  | succ k => simp [natDigitsAux, h]

/-- The digit expansion evaluates back to the number. -/
theorem digitsVal_natDigits (n : Nat) : digitsVal (natDigits n) = n := by
  induction n using Nat.strong_induction_on with
  | _ n ih =>
    by_cases h : n < 10
    · rw [natDigits_lt10_eq n h]
      simp [digitsVal]
    · rw [natDigits_step n (by omega)]
      unfold digitsVal
      rw [List.foldl_append]
      have hv := ih (n / 10) (by omega)
      unfold digitsVal at hv
      rw [hv]
      simp only [List.foldl_cons, List.foldl_nil]
      omega

/-- The digit expansion is never empty. -/
theorem natDigits_ne_nil (n : Nat) : natDigits n ≠ [] := by
  by_cases h : n < 10
  · rw [natDigits_lt10_eq n h]; simp
  · rw [natDigits_step n (by omega)]; simp

/-- A four-digit number expands to four digits. -/
theorem natDigits_length4 (n : Nat) (h1 : 1000 ≤ n) (h2 : n ≤ 9999) :
    (natDigits n).length = 4 := by
  rw [natDigits_step n (by omega)]
  rw [natDigits_step (n / 10) (by omega)]
  rw [natDigits_step (n / 10 / 10) (by omega)]
  rw [natDigits_lt10_eq (n / 10 / 10 / 10) (by omega)]
  simp

/-- The character of a decimal digit has the expected code point. -/
theorem digitChar_toNat (d : Nat) (h : d < 10) : (digitChar d).toNat = 48 + d := by
  interval_cases d <;> decide

/-- The character of a decimal digit is in the digit class. -/
theorem isDigitChar_digitChar (d : Nat) (h : d < 10) : isDigitChar (digitChar d) = true := by
  interval_cases d <;> decide

/-- The character of a decimal digit is not a dash. -/
theorem digitChar_ne_dash (d : Nat) (h : d < 10) : digitChar d ≠ '-' := by
  interval_cases d <;> decide

/-- The parse fold over rendered digits recovers the digit-list value. -/
theorem charsFold_digits :
    ∀ (ds : List Nat) (a : Nat), (∀ d ∈ ds, d < 10) →
      (ds.map digitChar).foldl (fun x c => x * 10 + (c.toNat - 48)) a =
        ds.foldl (fun x d => x * 10 + d) a := by
  intro ds
  induction ds with
  | nil => intro a _; rfl
  | cons d rest ih =>
    intro a h
    have hd : d < 10 := h d (List.mem_cons_self d rest)
    simp only [List.map_cons, List.foldl_cons]
    rw [digitChar_toNat d hd]
    have : 48 + d - 48 = d := by omega
    rw [this]
    exact ih _ (fun x hx => h x (List.mem_cons_of_mem d hx))

/-- Every character of a rendered natural number is a digit character. -/
theorem natToChars_all_digits (n : Nat) :
    ∀ c ∈ natToChars n, isDigitChar c = true := by
  intro c hc
  obtain ⟨d, hd, rfl⟩ := List.mem_map.mp hc
  exact isDigitChar_digitChar d (natDigitsAux_lt10 n n d hd)

/-- No character of a rendered natural number is a dash. -/
theorem natToChars_no_dash (n : Nat) : ∀ c ∈ natToChars n, ¬ c = '-' := by
  intro c hc
  obtain ⟨d, hd, rfl⟩ := List.mem_map.mp hc
  exact digitChar_ne_dash d (natDigitsAux_lt10 n n d hd)

/-- Parsing the rendering of a natural number gives the number back. -/
theorem jsParseInt_natToChars (n : Nat) : jsParseInt (natToChars n) = some n := by
  unfold jsParseInt
  have hall : ∀ c ∈ natToChars n, isDigitChar c = true := natToChars_all_digits n
  have htake : (natToChars n).takeWhile isDigitChar = natToChars n :=
    List.takeWhile_eq_self_iff.mpr hall
  rw [htake]
  have hne : natToChars n ≠ [] := by
    unfold natToChars
    simp [natDigits_ne_nil n]
  rw [if_neg (by simpa using hne)]
  unfold natToChars
  rw [charsFold_digits (natDigits n) 0 (natDigitsAux_lt10 n n)]
  have := digitsVal_natDigits n
  unfold digitsVal at this
  rw [this]

/-- The split model never returns an empty segment list. -/
theorem jsSplit_ne_nil (sep : Char) : ∀ cs, jsSplit sep cs ≠ [] := by
  intro cs
  cases cs with
  | nil => simp [jsSplit]
  | cons c rest =>
    simp only [jsSplit]
    cases h : jsSplit sep rest with
    | nil => simp
    | cons seg segs =>
      dsimp only
      split <;> simp

/-- Splitting a separator-free list yields that single segment. -/
theorem jsSplit_no_sep (sep : Char) :
    ∀ cs, (∀ c ∈ cs, ¬ c = sep) → jsSplit sep cs = [cs] := by
  intro cs
  induction cs with
  | nil => intro _; rfl
  | cons c rest ih =>
    intro h
    have hc : ¬ c = sep := h c (List.mem_cons_self c rest)
    simp only [jsSplit]
    rw [ih (fun x hx => h x (List.mem_cons_of_mem c hx))]
    simp [hc]

/-- Splitting at the first separator after a separator-free prefix peels that
prefix off as the first segment. -/
theorem jsSplit_append_sep (sep : Char) :
    ∀ (l1 l2 : List Char), (∀ c ∈ l1, ¬ c = sep) →
      jsSplit sep (l1 ++ sep :: l2) = l1 :: jsSplit sep l2 := by
  intro l1
  induction l1 with
  | nil =>
    intro l2 _
    simp only [List.nil_append, jsSplit]
    cases h : jsSplit sep l2 with
    | nil => exact absurd h (jsSplit_ne_nil sep l2)
    | cons seg segs => simp
  | cons c rest ih =>
    intro l2 h
    have hc : ¬ c = sep := h c (List.mem_cons_self c rest)
    simp only [List.cons_append, jsSplit, List.append_eq]
    rw [ih l2 (fun x hx => h x (List.mem_cons_of_mem c hx))]
    simp [hc]

/-- Every month has at least 28 days. -/
theorem daysInMonth_ge (y : Int) (m : Nat) : 28 ≤ daysInMonth y m := by
  unfold daysInMonth
  split
  · split <;> omega
  · split <;> omega

/-- Construction of a date inside a month, for years outside the two-digit
range: the Date constructor on month index m minus 1 with a day within month m
returns exactly that calendar date. -/
theorem jsDateYMD_in_month (y : Int) (m : Nat) (d : Int)
    (hy : 100 ≤ y) (hm1 : 1 ≤ m) (hm2 : m ≤ 12)
    (hd1 : 1 ≤ d) (hd2 : d ≤ (daysInMonth y m : Int)) :
    jsDateYMD y ((m : Int) - 1) d = some (y, m, d.toNat) := by
  unfold jsDateYMD
  rw [if_neg (by omega)]
  have hmap : jsYearMap y = y := by unfold jsYearMap; rw [if_neg (by omega)]
  dsimp only
  rw [hmap]
  rw [if_neg (show ¬((m : Int) - 1 = 12) by omega)]
  dsimp only
  rw [if_neg (show ¬(d = 0) by omega)]
  have hm' : ((m : Int) - 1).toNat + 1 = m := by omega
  rw [hm']
  rw [if_pos ⟨hd1, hd2⟩]

/-- Construction with day 0 on month index m, for years outside the two-digit
range: the result is the last day of calendar month m, for December as well
(where the month index first overflows into January of the next year). -/
theorem jsDateYMD_day0 (y : Int) (m : Nat)
    (hy : 100 ≤ y) (hm1 : 1 ≤ m) (hm2 : m ≤ 12) :
    jsDateYMD y (m : Int) 0 = some (y, m, daysInMonth y m) := by
  unfold jsDateYMD
  rw [if_neg (by omega)]
  have hmap : jsYearMap y = y := by unfold jsYearMap; rw [if_neg (by omega)]
  dsimp only
  rw [hmap]
  by_cases h12 : m = 12
  · subst h12
    simp
  · rw [if_neg (show ¬((m : Int) = 12) by omega)]
    simp [show ¬((m : Int).toNat + 1 = 1) from by omega,
      show (m : Int).toNat + 1 - 1 = m from by omega,
      show ¬(m = 0) from by omega]

/-- Parsing, length and character-class facts for the zero-padded month part
of a tournament id. -/
theorem month_part (m : Nat) (h1 : 1 ≤ m) (h2 : m ≤ 12) :
    jsParseInt (jsPadStart2Zero (natToChars m)) = some m
    ∧ (jsPadStart2Zero (natToChars m)).length = 2
    ∧ (∀ c ∈ jsPadStart2Zero (natToChars m), isDigitChar c = true)
    ∧ (∀ c ∈ jsPadStart2Zero (natToChars m), ¬ c = '-') := by
  interval_cases m <;> exact ⟨by decide, by decide, by decide, by decide⟩

/-- Evaluation of getTournamentDateRange on a well-formed first-half id built
from a four-digit year and a month: days 1 through 15 of that month. -/
theorem range_built_T1 (y : Int) (m : Nat)
    (hy1 : 1000 ≤ y) (hy2 : y ≤ 9999) (hm1 : 1 ≤ m) (hm2 : m ≤ 12) :
    getTournamentDateRange
        (natToChars y.toNat ++ '-' :: (jsPadStart2Zero (natToChars m) ++ '-' :: 'T' :: ['1'])) =
      some ((y, m, 1), (y, m, 15)) := by
  have hytn : ((y.toNat : Int)) = y := by omega
  have hydash := natToChars_no_dash y.toNat
  have hyparse := jsParseInt_natToChars y.toNat
  obtain ⟨hmparse, _, _, hmdash⟩ := month_part m hm1 hm2
  have hge := daysInMonth_ge y m
  have hsplit : jsSplit '-'
      (natToChars y.toNat ++ '-' :: (jsPadStart2Zero (natToChars m) ++ '-' :: 'T' :: ['1'])) =
      [natToChars y.toNat, jsPadStart2Zero (natToChars m), ['T', '1']] := by
    rw [jsSplit_append_sep '-' _ _ hydash, jsSplit_append_sep '-' _ _ hmdash,
      jsSplit_no_sep '-' _ (by decide)]
  unfold getTournamentDateRange
  rw [hsplit]
  dsimp only
  rw [show jsParseInt (jsReplaceFirst 'T' ['T', '1']) = some 1 from by decide,
    hmparse, hyparse]
  dsimp only
  rw [if_pos rfl, if_pos rfl]
  dsimp only
  rw [hytn]
  rw [jsDateYMD_in_month y m 1 (by omega) hm1 hm2 (by omega) (by omega),
    jsDateYMD_in_month y m 15 (by omega) hm1 hm2 (by omega) (by omega)]
  rfl

/-- Evaluation of getTournamentDateRange on a well-formed second-half id built
from a four-digit year and a month: day 16 through the last day of that
month. -/
theorem range_built_T2 (y : Int) (m : Nat)
    (hy1 : 1000 ≤ y) (hy2 : y ≤ 9999) (hm1 : 1 ≤ m) (hm2 : m ≤ 12) :
    getTournamentDateRange
        (natToChars y.toNat ++ '-' :: (jsPadStart2Zero (natToChars m) ++ '-' :: 'T' :: ['2'])) =
      some ((y, m, 16), (y, m, daysInMonth y m)) := by
  have hytn : ((y.toNat : Int)) = y := by omega
  have hydash := natToChars_no_dash y.toNat
  have hyparse := jsParseInt_natToChars y.toNat
  obtain ⟨hmparse, _, _, hmdash⟩ := month_part m hm1 hm2
  have hge := daysInMonth_ge y m
  have hsplit : jsSplit '-'
      (natToChars y.toNat ++ '-' :: (jsPadStart2Zero (natToChars m) ++ '-' :: 'T' :: ['2'])) =
      [natToChars y.toNat, jsPadStart2Zero (natToChars m), ['T', '2']] := by
    rw [jsSplit_append_sep '-' _ _ hydash, jsSplit_append_sep '-' _ _ hmdash,
      jsSplit_no_sep '-' _ (by decide)]
  unfold getTournamentDateRange
  rw [hsplit]
  dsimp only
  rw [show jsParseInt (jsReplaceFirst 'T' ['T', '2']) = some 2 from by decide,
    hmparse, hyparse]
  dsimp only
  rw [if_neg (by decide), if_neg (by decide)]
  rw [hytn]
  rw [jsDateYMD_day0 y m (by omega) hm1 hm2]
  dsimp only [Option.map_some']
  rw [jsDateYMD_in_month y m 16 (by omega) hm1 hm2 (by omega) (by omega),
    jsDateYMD_in_month y m (daysInMonth y m : Int) (by omega) hm1 hm2 (by omega) (by omega)]
  dsimp only
  rw [show ((daysInMonth y m : Int)).toNat = daysInMonth y m from by omega]
  rfl

/-- C6 amended: for every valid calendar date with a four-digit year (1000 to
9999; the Date constructor remaps years 0 to 99, breaking the claim outside
this range), the range computed from the current tournament id contains the
date, day at most 15 giving half 1 with range day 1 to day 15 and day 16
onward giving half 2 with range day 16 to the last day of the month; the id
consists of the 4-digit year, a 2-digit month and the half after a T. -/
theorem tournament_range_roundtrip (y : Int) (m d : Nat)
    (hy1 : 1000 ≤ y) (hy2 : y ≤ 9999) (hm1 : 1 ≤ m) (hm2 : m ≤ 12)
    (hd1 : 1 ≤ d) (hd2 : d ≤ daysInMonth y m) :
    getTournamentDateRange (getCurrentTournamentId y m d) =
      some ((y, m, if d ≤ 15 then 1 else 16),
            (y, m, if d ≤ 15 then 15 else daysInMonth y m))
    ∧ dateLE (y, m, if d ≤ 15 then 1 else 16) (y, m, d)
    ∧ dateLE (y, m, d) (y, m, if d ≤ 15 then 15 else daysInMonth y m)
    ∧ ∃ ys ms : List Char,
        getCurrentTournamentId y m d =
          ys ++ '-' :: ms ++ '-' :: 'T' :: [if d ≤ 15 then '1' else '2']
        ∧ ys.length = 4 ∧ (∀ c ∈ ys, isDigitChar c = true)
        ∧ ms.length = 2 ∧ (∀ c ∈ ms, isDigitChar c = true) := by
  have hyI : jsIntToChars y = natToChars y.toNat := by
    unfold jsIntToChars; rw [if_neg (by omega)]
  have hylen : (natToChars y.toNat).length = 4 := by
    unfold natToChars
    rw [List.length_map]
    exact natDigits_length4 y.toNat (by omega) (by omega)
  have hydig := natToChars_all_digits y.toNat
  obtain ⟨_, hmlen, hmdig, _⟩ := month_part m hm1 hm2
  by_cases hd15 : d ≤ 15
  · have hid : getCurrentTournamentId y m d =
        natToChars y.toNat ++ '-' :: (jsPadStart2Zero (natToChars m) ++ '-' :: 'T' :: ['1']) := by
      unfold getCurrentTournamentId
      rw [hyI]
      simp only [if_pos hd15, List.cons_append, List.append_assoc]
      rw [show natToChars 1 = ['1'] from by decide]
    simp only [if_pos hd15]
    refine ⟨?_, ?_, ?_, ?_⟩
    · rw [hid]
      exact range_built_T1 y m hy1 hy2 hm1 hm2
    · simp [dateLE]; omega
    · simp [dateLE]; omega
    · refine ⟨natToChars y.toNat, jsPadStart2Zero (natToChars m), ?_, hylen, hydig, hmlen, hmdig⟩
      rw [hid]
      simp [List.cons_append, List.append_assoc]
  · have hid : getCurrentTournamentId y m d =
        natToChars y.toNat ++ '-' :: (jsPadStart2Zero (natToChars m) ++ '-' :: 'T' :: ['2']) := by
      unfold getCurrentTournamentId
      rw [hyI]
      simp only [if_neg hd15, List.cons_append, List.append_assoc]
      rw [show natToChars 2 = ['2'] from by decide]
    simp only [if_neg hd15]
    refine ⟨?_, ?_, ?_, ?_⟩
    · rw [hid]
      exact range_built_T2 y m hy1 hy2 hm1 hm2
    · simp [dateLE]; omega
    · simp [dateLE]; omega
    · refine ⟨natToChars y.toNat, jsPadStart2Zero (natToChars m), ?_, hylen, hydig, hmlen, hmdig⟩
      rw [hid]
      simp [List.cons_append, List.append_assoc]

/-- Witness for C6 amended at the specification's example date, February 20 of
the leap year 2024. -/
theorem tournament_range_roundtrip_witness :
    getTournamentDateRange (getCurrentTournamentId 2024 2 20) =
      some ((2024, 2, if 20 ≤ 15 then 1 else 16),
            (2024, 2, if 20 ≤ 15 then 15 else daysInMonth 2024 2))
    ∧ dateLE (2024, 2, if 20 ≤ 15 then 1 else 16) (2024, 2, 20)
    ∧ dateLE (2024, 2, 20) (2024, 2, if 20 ≤ 15 then 15 else daysInMonth 2024 2)
    ∧ ∃ ys ms : List Char,
        getCurrentTournamentId 2024 2 20 =
          ys ++ '-' :: ms ++ '-' :: 'T' :: [if 20 ≤ 15 then '1' else '2']
        ∧ ys.length = 4 ∧ (∀ c ∈ ys, isDigitChar c = true)
        ∧ ms.length = 2 ∧ (∀ c ∈ ms, isDigitChar c = true) :=
  tournament_range_roundtrip 2024 2 20 (by decide) (by decide) (by decide) (by decide)
    (by decide) (by decide)

